import Mathlib

/-!
# Fingerprint bridge: codec, device session and feature comparison

A shallow embedding of `fingerprint-bridge/fingerprint_bridge.cpp`.

* `std::vector<unsigned char>` is `List UInt8`; `std::string` is `List Char`: the source
  compares characters only with the ASCII characters of `data:`, `,`, `=` and the alphabet.
* `unsigned int` accumulators are `Nat` reduced `% 2 ^ 32` after every
  arithmetic step that can wrap; `int` counters are `Int`.
* `push_back` is `++ [x]`.
* A `while` loop is a recursion on a fuel argument; `encodeWhile_fuel_suffices`,
  `padWhile_exits` and the two `more_fuel` lemmas show that the fuel given is enough: each
  loop leaves on its own condition and more fuel changes nothing.
* A driver call is modelled by the answer the driver gives; every theorem quantifies over
  all answers.
-/

set_option linter.dupNamespace false

namespace FingerprintBridge

/-! ## Base64 codec -/

/-- The string literal `base64_chars` shared by the encoder and the decoder. -/
def base64_chars : List Char :=
  "ABCDEFGHIJKLMNOPQRSTUVWXYZabcdefghijklmnopqrstuvwxyz0123456789+/".toList

/-- Text of `base64_chars[i]`. Every index in the source is masked with `0x3F`. -/
def charAt (i : Nat) : Char := base64_chars.getD i 'A'

/-- Model of `std::string::find(char)`: index of the first occurrence, `none` for `npos`. -/
def findChar (c : Char) : List Char → Option Nat
  | [] => none
  | x :: xs => if x = c then some 0 else (findChar c xs).map (· + 1)

/-- Model of `std::string::find(const char*)`: first index at which `needle` occurs,
`none` for `npos`. -/
def findStr (needle : List Char) : List Char → Option Nat
  | [] => if needle.isPrefixOf [] then some 0 else none
  | x :: xs =>
    if needle.isPrefixOf (x :: xs) then some 0 else (findStr needle xs).map (· + 1)

/-- The inner `while (valb >= 0)` loop of `base64Encode`; `fuel` bounds the iterations. -/
def encodeWhile : Nat → Nat → Int → List Char → Int × List Char
  | 0, _, valb, out => (valb, out)
  | fuel + 1, val, valb, out =>
    if valb ≥ 0 then
      encodeWhile fuel val (valb - 6) (out ++ [charAt ((val >>> valb.toNat) &&& 0x3F)])
    else (valb, out)

/-- The `for (unsigned char c : data)` loop of `base64Encode`, on the state `(val, valb, out)`. -/
def encodeFor : List UInt8 → Nat → Int → List Char → Nat × Int × List Char
  | [], val, valb, out => (val, valb, out)
  | c :: cs, val, valb, out =>
    let val1 := ((val <<< 8) + c.toNat) % 2 ^ 32
    let valb1 := valb + 8
    let r := encodeWhile (valb1.toNat + 1) val1 valb1 out
    encodeFor cs val1 r.1 r.2

/-- The `while (out.size() % 4) out.push_back('=')` loop; `fuel` bounds the iterations. -/
def padWhile : Nat → List Char → List Char
  | 0, out => out
  | fuel + 1, out => if out.length % 4 ≠ 0 then padWhile fuel (out ++ ['=']) else out

/-- The part of `base64Encode` after the `for` loop, on the loop's final state
`(val, valb, out)`: the flush `if (valb > -6) out.push_back(...)` and the padding loop. -/
def encodeFinish (s : Nat × Int × List Char) : List Char :=
  padWhile 4
    (if s.2.1 > -6 then
      s.2.2 ++ [charAt ((((s.1 <<< 8) % 2 ^ 32) >>> (s.2.1 + 8).toNat) &&& 0x3F)]
    else s.2.2)

/-- Model of `FingerprintBridge::base64Encode`: `val = 0`, `valb = -6`, the `for` loop, then the
flush and the padding. -/
def base64Encode (data : List UInt8) : List Char :=
  encodeFinish (encodeFor data 0 (-6) [])

/-- The data-URL prefix removal at the head of `base64Decode`. -/
def removeDataUrl (encoded : List Char) : List Char :=
  if findStr "data:".toList encoded = some 0 then
    match findChar ',' encoded with
    | some commaPos => encoded.drop (commaPos + 1)
    | none => encoded
  else encoded

/-- The `for (char c : base64)` loop of `base64Decode`, on the state `(val, valb, out)`. -/
def decodeFor : List Char → Nat → Int → List UInt8 → List UInt8
  | [], _, _, out => out
  | c :: cs, val, valb, out =>
    if c = '=' then out
    else
      match findChar c base64_chars with
      | none => decodeFor cs val valb out
      | some pos =>
        let val1 := ((val <<< 6) + pos) % 2 ^ 32
        let valb1 := valb + 6
        if valb1 ≥ 0 then
          decodeFor cs val1 (valb1 - 8)
            (out ++ [UInt8.ofNat ((val1 >>> valb1.toNat) &&& 0xFF)])
        else decodeFor cs val1 valb1 out

/-- Model of `FingerprintBridge::base64Decode`: the prefix removal, then the `for` loop from
`val = 0`, `valb = -8` and an empty `out`. -/
def base64Decode (encoded : List Char) : List UInt8 :=
  decodeFor (removeDataUrl encoded) 0 (-8) []

/-- The output of the encoder written group by group, with the source's table `charAt`:
four characters for a full 3-byte group, two characters and `==` for a trailing byte, three
characters and `=` for two trailing bytes. -/
def groupEncode : List UInt8 → List Char
  | [] => []
  | [a] =>
    let n := a.toNat * 2 ^ 4
    [charAt (n / 2 ^ 6 % 64), charAt (n % 64), '=', '=']
  | [a, b] =>
    let n := (a.toNat * 2 ^ 8 + b.toNat) * 2 ^ 2
    [charAt (n / 2 ^ 12 % 64), charAt (n / 2 ^ 6 % 64), charAt (n % 64), '=']
  | a :: b :: c :: rest =>
    let n := a.toNat * 2 ^ 16 + b.toNat * 2 ^ 8 + c.toNat
    charAt (n / 2 ^ 18 % 64) :: charAt (n / 2 ^ 12 % 64) :: charAt (n / 2 ^ 6 % 64)
      :: charAt (n % 64) :: groupEncode rest

/-- The Base64 alphabet of RFC 4648 by value: 0 to 25 are `A` to `Z`, 26 to 51 are `a` to
`z`, 52 to 61 are `0` to `9`, 62 is `+` and 63 is `/`. -/
def rfc4648Alphabet (i : Nat) : Char :=
  if i < 26 then Char.ofNat ('A'.toNat + i)
  else if i < 52 then Char.ofNat ('a'.toNat + (i - 26))
  else if i < 62 then Char.ofNat ('0'.toNat + (i - 52))
  else if i = 62 then '+'
  else '/'

/-- The padded Base64 encoding of RFC 4648, group by group: a full 3-byte group is the
24-bit number `n` and yields the characters indexed by its four 6-bit slices, most
significant first; a trailing 1-byte group is padded with four zero bits to 12 bits and
yields two characters and `==`; a trailing 2-byte group is padded with two zero bits to 18
bits and yields three characters and `=`. -/
def rfc4648Encode : List UInt8 → List Char
  | [] => []
  | [a] =>
    let n := a.toNat * 2 ^ 4
    [rfc4648Alphabet (n / 2 ^ 6 % 64), rfc4648Alphabet (n % 64), '=', '=']
  | [a, b] =>
    let n := (a.toNat * 2 ^ 8 + b.toNat) * 2 ^ 2
    [rfc4648Alphabet (n / 2 ^ 12 % 64), rfc4648Alphabet (n / 2 ^ 6 % 64),
      rfc4648Alphabet (n % 64), '=']
  | a :: b :: c :: rest =>
    let n := a.toNat * 2 ^ 16 + b.toNat * 2 ^ 8 + c.toNat
    rfc4648Alphabet (n / 2 ^ 18 % 64) :: rfc4648Alphabet (n / 2 ^ 12 % 64)
      :: rfc4648Alphabet (n / 2 ^ 6 % 64) :: rfc4648Alphabet (n % 64) :: rfc4648Encode rest

/-- The part of `s` before its first `=` (all of `s` when it has none), with every
character outside the 64-character alphabet removed. -/
def payloadOf (s : List Char) : List Char :=
  (s.takeWhile (fun c => decide (c ≠ '='))).filter (fun c => decide (c ∈ base64_chars))

/-! ## The N-API boundary and the driver boundary -/

/-- JavaScript values crossing the N-API boundary. -/
inductive JsValue where
  | null
  | boolean (b : Bool)
  | number (n : Int)
  | string (s : String)
  | object (fields : List (String × JsValue))
  | array (items : List JsValue)

/-- A JavaScript exception left pending by `ThrowAsJavaScriptException`. -/
inductive JsError where
  | typeError (message : String)
  | error (message : String)
  deriving DecidableEq

/-- What a method hands back to JavaScript: the pending exception, if any, and the
returned value. -/
structure NapiReturn where
  exception : Option JsError
  value : JsValue

/-- Status codes the source names and the SDK headers `dpfpdd.h` and `dpfj.h` define.
The headers are not part of the repository, so the codes are parameters. -/
structure SdkCodes where
  DPFPDD_SUCCESS : Int
  DPFJ_SUCCESS : Int
  DPFJ_E_NOT_MATCH : Int
  deriving DecidableEq

/-- The opaque device handle `DPFPDD_DEV`. -/
abbrev Handle := Nat

/-- A call the session issues to the driver, with the driver's answer: `dpfpdd_open(id, &h)`
on the C string `id`, returning `result` and leaving `handle` in `h`, or
`dpfpdd_close(handle)` returning `result`. -/
inductive DriverCall where
  | dpfpdd_open (deviceId : String) (result : Int) (handle : Handle)
  | dpfpdd_close (handle : Handle) (result : Int)
  deriving DecidableEq

/-- The member variables `device_handle_` and `device_open_`. -/
structure Session where
  device_handle_ : Handle
  device_open_ : Bool
  deriving DecidableEq

/-- The driver's answer to `dpfpdd_open`: the status and the value found in
`device_handle_` once the call is over. -/
structure OpenReply where
  result : Int
  handle : Handle
  deriving DecidableEq

/-- Model of `std::string::c_str()` as a C callee reads it: the text up to the first NUL
character. -/
def c_str (s : String) : String :=
  String.mk (s.toList.takeWhile (fun c => decide (c ≠ Char.ofNat 0)))

/-- Model of the constructor `FingerprintBridge::FingerprintBridge`: `device_open_(false)`, `device_handle_` left
uninitialised (`garbage`), then `dpfpdd_init`, whose status is `initResult`. -/
def FingerprintBridge (codes : SdkCodes) (garbage : Handle) (initResult : Int) :
    Session × Option JsError :=
  let s : Session := { device_handle_ := garbage, device_open_ := false }
  if initResult ≠ codes.DPFPDD_SUCCESS then
    (s, some (JsError.error "Failed to initialize DigitalPersona SDK"))
  else (s, none)

/-- Destruction of the object. `class FingerprintBridge` declares no destructor, so the
implicitly defined one runs: it destroys the two trivially destructible members and
executes no statement of this file, hence issues no driver call. -/
def destructor (_s : Session) : List DriverCall := []

/-- Model of `FingerprintBridge::OpenDevice`. `closeResult` is the driver's answer to the
`dpfpdd_close` issued when a device is already open, `reply` its answer to `dpfpdd_open`.
Returns the new members, what JavaScript receives, and the driver calls issued. -/
def OpenDevice (codes : SdkCodes) (s : Session) (info : List JsValue) (closeResult : Int)
    (reply : OpenReply) : Session × NapiReturn × List DriverCall :=
  match info with
  | JsValue.string device_id :: _ =>
    let closed : Session × List DriverCall :=
      if s.device_open_ then
        ({ s with device_open_ := false }, [DriverCall.dpfpdd_close s.device_handle_ closeResult])
      else (s, [])
    let s1 : Session := { closed.1 with device_handle_ := reply.handle }
    let calls :=
      closed.2 ++ [DriverCall.dpfpdd_open (c_str device_id) reply.result reply.handle]
    if reply.result ≠ codes.DPFPDD_SUCCESS then
      (s1, ⟨some (JsError.error ("Failed to open device: " ++ toString reply.result)),
        JsValue.boolean false⟩, calls)
    else
      ({ s1 with device_open_ := true }, ⟨none, JsValue.boolean true⟩, calls)
  | _ => (s, ⟨some (JsError.typeError "Device ID expected"), JsValue.null⟩, [])

/-- Model of `FingerprintBridge::CloseDevice`. `closeResult` is the driver's answer to
`dpfpdd_close`. -/
def CloseDevice (codes : SdkCodes) (s : Session) (closeResult : Int) :
    Session × NapiReturn × List DriverCall :=
  if !s.device_open_ then (s, ⟨none, JsValue.boolean true⟩, [])
  else
    let s1 : Session := { s with device_open_ := false }
    let calls := [DriverCall.dpfpdd_close s.device_handle_ closeResult]
    if closeResult ≠ codes.DPFPDD_SUCCESS then
      (s1, ⟨some (JsError.error ("Failed to close device: " ++ toString closeResult)),
        JsValue.boolean false⟩, calls)
    else (s1, ⟨none, JsValue.boolean true⟩, calls)

/-- One call of the session surface, together with the answers the driver gives to the
driver calls issued during it. -/
inductive ApiCall where
  | openDevice (info : List JsValue) (closeResult : Int) (reply : OpenReply)
  | closeDevice (closeResult : Int)

/-- Run one call on the members and append the driver calls it issues to the trace. -/
def step (codes : SdkCodes) (st : Session × List DriverCall) :
    ApiCall → Session × List DriverCall
  | ApiCall.openDevice info closeResult reply =>
    let r := OpenDevice codes st.1 info closeResult reply
    (r.1, st.2 ++ r.2.2)
  | ApiCall.closeDevice closeResult =>
    let r := CloseDevice codes st.1 closeResult
    (r.1, st.2 ++ r.2.2)

/-- Run a sequence of calls from a freshly constructed object; the result is the final
members and the trace of all driver open/close calls issued, oldest first. -/
def run (codes : SdkCodes) (garbage : Handle) (initResult : Int) (calls : List ApiCall) :
    Session × List DriverCall :=
  calls.foldl (step codes) ((FingerprintBridge codes garbage initResult).1, [])

/-- The live handles after one more driver call: a successful open acquires its handle, a
close releases the handle passed to it. -/
def liveAfter (codes : SdkCodes) (live : List Handle) : DriverCall → List Handle
  | DriverCall.dpfpdd_open _ result handle =>
    if result = codes.DPFPDD_SUCCESS then live ++ [handle] else live
  | DriverCall.dpfpdd_close handle _ => live.erase handle

/-- The handles acquired by a successful driver open of the trace and not yet passed to a
driver close. -/
def liveHandles (codes : SdkCodes) (trace : List DriverCall) : List Handle :=
  trace.foldl (liveAfter codes) []

/-- One `DPFPDD_DEV_INFO` entry, as far as the source reads it. -/
structure DevInfo where
  name : String
  id : String

/-- The driver's answer to `dpfpdd_get_device_count`: the status and the value found in
`device_count` once the call is over. -/
structure CountReply where
  result : Int
  device_count : Int

/-- The driver's answer to `dpfpdd_query_devices`: the status, the value found in
`device_count` once the call is over, and the content of the `devices` buffer by index. -/
structure QueryReply where
  result : Int
  device_count : Int
  devices : Nat → DevInfo

/-- Model of `FingerprintBridge::GetDeviceList`. `none` stands for the paths on which the
C++ does not return normally: a negative count from the count query, with which the
`std::vector` constructor throws, and a count left by the descriptor query above the buffer
size, with which the loop reads past the buffer. A count of zero or below left by a
successful descriptor query gives the empty array: the loop body never runs. -/
def GetDeviceList (codes : SdkCodes) (count : CountReply) (query : QueryReply) :
    Option JsValue :=
  if count.result ≠ codes.DPFPDD_SUCCESS then some (JsValue.number 0)
  else if count.device_count = 0 then some (JsValue.array [])
  else if count.device_count < 0 then none
  else if query.result ≠ codes.DPFPDD_SUCCESS then some (JsValue.array [])
  else if query.device_count > count.device_count then none
  else
    some (JsValue.array ((List.range query.device_count.toNat).map fun i =>
      JsValue.object [("name", JsValue.string (query.devices i).name),
        ("id", JsValue.string (query.devices i).id)]))

/-- The driver's answer to `dpfj_compare`: the status and the value found in `score` once
the call is over. -/
structure CompareReply where
  result : Int
  score : Nat

/-- Model of `FingerprintBridge::CompareFeatures`. `dpfj_compare` is the matcher, as a function of
the two templates it is given. Returns what JavaScript receives and the matcher calls
issued, each with its two arguments. -/
def CompareFeatures (codes : SdkCodes) (info : List JsValue)
    (dpfj_compare : List UInt8 → List UInt8 → CompareReply) :
    NapiReturn × List (List UInt8 × List UInt8) :=
  match info with
  | JsValue.string base64Features1 :: JsValue.string base64Features2 :: _ =>
    let features1 := base64Decode base64Features1.toList
    let features2 := base64Decode base64Features2.toList
    if features1.isEmpty || features2.isEmpty then
      (⟨some (JsError.error "Failed to decode base64 feature data"), JsValue.null⟩, [])
    else
      let reply := dpfj_compare features1 features2
      let calls := [(features1, features2)]
      if reply.result ≠ codes.DPFJ_SUCCESS ∧ reply.result ≠ codes.DPFJ_E_NOT_MATCH then
        (⟨some (JsError.error ("Failed to compare features: " ++ toString reply.result)),
          JsValue.null⟩, calls)
      else
        let matched := decide (reply.result = codes.DPFJ_SUCCESS)
        (⟨none, JsValue.object [("success", JsValue.boolean true),
          ("matched", JsValue.boolean matched),
          ("score", JsValue.number (Int.ofNat reply.score))]⟩, calls)
  | _ =>
    (⟨some (JsError.typeError "Two base64-encoded feature sets expected"), JsValue.null⟩, [])

/-- The session invariant on the members and the trace of driver calls issued so far:
the session is open exactly when the most recent driver call is a successful open; every
driver open was issued with no live handle; and the live handles are the one held by an
open session, none for a closed one. -/
def SessionInvariant (codes : SdkCodes) (st : Session × List DriverCall) : Prop :=
  (st.1.device_open_ = true ↔
      ∃ id h, st.2.getLast? = some (DriverCall.dpfpdd_open id codes.DPFPDD_SUCCESS h)) ∧
    (∀ pre id r h post, st.2 = pre ++ DriverCall.dpfpdd_open id r h :: post →
      liveHandles codes pre = []) ∧
    liveHandles codes st.2 = if st.1.device_open_ then [st.1.device_handle_] else []

/-! ## Bit operations as arithmetic -/

theorem and_0x3F (x : Nat) : x &&& 0x3F = x % 64 := Nat.and_pow_two_sub_one_eq_mod x 6

theorem and_0xFF (x : Nat) : x &&& 0xFF = x % 256 := Nat.and_pow_two_sub_one_eq_mod x 8

theorem ofNat_toNat (c : UInt8) : UInt8.ofNat c.toNat = c := by
  apply UInt8.ext
  show (UInt8.ofNat c.toNat).toNat = c.toNat
  have h := UInt8.toNat_lt c
  simp only [UInt8.ofNat, UInt8.toNat, BitVec.toNat_ofNat] at *
  omega

/-! ## The encoder, one byte at a time -/

theorem encodeFor_phase0 (c : UInt8) (cs : List UInt8) (val : Nat) (out : List Char) :
    encodeFor (c :: cs) val (-6) out =
      encodeFor cs ((val * 256 + c.toNat) % 2 ^ 32) (-4)
        (out ++ [charAt ((val * 256 + c.toNat) % 2 ^ 32 / 4 % 64)]) := by
  simp [encodeFor, encodeWhile, and_0x3F, Nat.shiftLeft_eq, Nat.shiftRight_eq_div_pow]

theorem encodeFor_phase1 (c : UInt8) (cs : List UInt8) (val : Nat) (out : List Char) :
    encodeFor (c :: cs) val (-4) out =
      encodeFor cs ((val * 256 + c.toNat) % 2 ^ 32) (-2)
        (out ++ [charAt ((val * 256 + c.toNat) % 2 ^ 32 / 16 % 64)]) := by
  simp [encodeFor, encodeWhile, and_0x3F, Nat.shiftLeft_eq, Nat.shiftRight_eq_div_pow]

theorem encodeFor_phase2 (c : UInt8) (cs : List UInt8) (val : Nat) (out : List Char) :
    encodeFor (c :: cs) val (-2) out =
      encodeFor cs ((val * 256 + c.toNat) % 2 ^ 32) (-6)
        (out ++ [charAt ((val * 256 + c.toNat) % 2 ^ 32 / 64 % 64),
          charAt ((val * 256 + c.toNat) % 2 ^ 32 % 64)]) := by
  simp [encodeFor, encodeWhile, and_0x3F, Nat.shiftLeft_eq, Nat.shiftRight_eq_div_pow]

/-! ## The encoder agrees with RFC 4648 -/

theorem base64Encode_eq_finish (data : List UInt8) :
    base64Encode data = encodeFinish (encodeFor data 0 (-6) []) := rfl

theorem padWhile_aligned (fuel : Nat) (out : List Char) (h : out.length % 4 = 0) :
    padWhile fuel out = out := by
  cases fuel <;> simp [padWhile, h]

theorem padWhile_one (out : List Char) (h : out.length % 4 = 3) :
    padWhile 4 out = out ++ ['='] := by
  have h1 : (out.length + 1) % 4 = 0 := by omega
  simp [padWhile, h, h1]

theorem padWhile_two (out : List Char) (h : out.length % 4 = 2) :
    padWhile 4 out = out ++ ['=', '='] := by
  have h1 : (out.length + 1) % 4 ≠ 0 := by omega
  have h2 : (out.length + 2) % 4 = 0 := by omega
  simp [padWhile, h, h1, h2]

set_option maxRecDepth 8000 in
theorem encodeFinish_encodeFor (data : List UInt8) :
    ∀ (val : Nat) (out : List Char), out.length % 4 = 0 →
      encodeFinish (encodeFor data val (-6) out) = out ++ groupEncode data := by
  induction data using groupEncode.induct with
  | case1 =>
    intro val out h
    simp [encodeFor, encodeFinish, groupEncode, padWhile_aligned, h]
  | case2 a =>
    intro val out h
    have ha := UInt8.toNat_lt a
    rw [encodeFor_phase0]
    simp only [encodeFor, encodeFinish, groupEncode, and_0x3F, Nat.shiftLeft_eq,
      Nat.shiftRight_eq_div_pow]
    norm_num
    rw [padWhile_two _ (by simp; omega)]
    have t4 : Int.toNat 4 = 4 := rfl
    simp only [t4, List.append_assoc, List.cons_append, List.nil_append, List.append_cancel_left_eq,
      List.cons.injEq, and_true]
    refine ⟨?_, ?_⟩ <;> exact congrArg charAt (by omega)
  | case3 a b =>
    intro val out h
    have ha := UInt8.toNat_lt a
    have hb := UInt8.toNat_lt b
    rw [encodeFor_phase0, encodeFor_phase1]
    simp only [encodeFor, encodeFinish, groupEncode, and_0x3F, Nat.shiftLeft_eq,
      Nat.shiftRight_eq_div_pow]
    norm_num
    rw [padWhile_one _ (by simp; omega)]
    have t6 : Int.toNat 6 = 6 := rfl
    simp only [t6, List.append_assoc, List.cons_append, List.nil_append, List.append_cancel_left_eq,
      List.cons.injEq, and_true]
    refine ⟨?_, ?_, ?_⟩ <;> exact congrArg charAt (by omega)
  | case4 a b c rest ih =>
    intro val out h
    have ha := UInt8.toNat_lt a
    have hb := UInt8.toNat_lt b
    have hc := UInt8.toNat_lt c
    rw [encodeFor_phase0, encodeFor_phase1, encodeFor_phase2, ih _ _ (by simp; omega)]
    simp only [groupEncode]
    norm_num
    refine ⟨?_, ?_, ?_, ?_⟩ <;> exact congrArg charAt (by omega)

theorem base64Encode_eq_groupEncode (data : List UInt8) :
    base64Encode data = groupEncode data := by
  rw [base64Encode_eq_finish, encodeFinish_encodeFor data 0 [] (by simp)]
  simp

theorem groupEncode_length (data : List UInt8) : (groupEncode data).length % 4 = 0 := by
  induction data using groupEncode.induct with
  | case1 => simp [groupEncode]
  | case2 a => simp [groupEncode]
  | case3 a b => simp [groupEncode]
  | case4 a b c rest ih =>
    simp only [groupEncode, List.length_cons]
    omega

/-- The test vectors of RFC 4648, section 10, on the specification side and on the code. -/
theorem rfc4648_test_vectors :
    rfc4648Encode [] = "".toList ∧
      rfc4648Encode [0x66] = "Zg==".toList ∧
      rfc4648Encode [0x66, 0x6F] = "Zm8=".toList ∧
      rfc4648Encode [0x66, 0x6F, 0x6F] = "Zm9v".toList ∧
      rfc4648Encode [0x66, 0x6F, 0x6F, 0x62] = "Zm9vYg==".toList ∧
      rfc4648Encode [0x66, 0x6F, 0x6F, 0x62, 0x61] = "Zm9vYmE=".toList ∧
      rfc4648Encode [0x66, 0x6F, 0x6F, 0x62, 0x61, 0x72] = "Zm9vYmFy".toList ∧
      base64Encode [0x66, 0x6F, 0x6F, 0x62, 0x61] = "Zm9vYmE=".toList ∧
      base64Decode "Zm9vYmE=".toList = [0x66, 0x6F, 0x6F, 0x62, 0x61] := by
  decide

/-! ## The decoder on encoder output -/

set_option maxRecDepth 100000 in
theorem alphabet_facts : ∀ i : Fin 64,
    findChar (charAt i.val) base64_chars = some i.val ∧ charAt i.val ≠ '=' ∧
      charAt i.val ≠ ':' ∧ rfc4648Alphabet i.val = charAt i.val := by
  decide

theorem findChar_charAt (i : Nat) (h : i < 64) : findChar (charAt i) base64_chars = some i :=
  (alphabet_facts ⟨i, h⟩).1

theorem charAt_ne_pad (i : Nat) (h : i < 64) : charAt i ≠ '=' :=
  (alphabet_facts ⟨i, h⟩).2.1

theorem charAt_ne_colon (i : Nat) (h : i < 64) : charAt i ≠ ':' :=
  (alphabet_facts ⟨i, h⟩).2.2.1

theorem rfc4648Alphabet_eq_charAt (i : Nat) (h : i < 64) : rfc4648Alphabet i = charAt i :=
  (alphabet_facts ⟨i, h⟩).2.2.2

theorem rfc4648Encode_eq_groupEncode (data : List UInt8) :
    rfc4648Encode data = groupEncode data := by
  induction data using groupEncode.induct with
  | case1 => rfl
  | case2 a =>
    simp only [rfc4648Encode, groupEncode]
    rw [rfc4648Alphabet_eq_charAt _ (by omega), rfc4648Alphabet_eq_charAt _ (by omega)]
  | case3 a b =>
    simp only [rfc4648Encode, groupEncode]
    rw [rfc4648Alphabet_eq_charAt _ (by omega), rfc4648Alphabet_eq_charAt _ (by omega),
      rfc4648Alphabet_eq_charAt _ (by omega)]
  | case4 a b c rest ih =>
    simp only [rfc4648Encode, groupEncode]
    rw [rfc4648Alphabet_eq_charAt _ (by omega), rfc4648Alphabet_eq_charAt _ (by omega),
      rfc4648Alphabet_eq_charAt _ (by omega), rfc4648Alphabet_eq_charAt _ (by omega), ih]

theorem decodeFor_pad (cs : List Char) (val : Nat) (valb : Int) (out : List UInt8) :
    decodeFor ('=' :: cs) val valb out = out := by
  simp [decodeFor]

theorem decodeFor_phase0 (i : Nat) (h : i < 64) (cs : List Char) (val : Nat)
    (out : List UInt8) :
    decodeFor (charAt i :: cs) val (-8) out = decodeFor cs ((val * 64 + i) % 2 ^ 32) (-2) out := by
  simp [decodeFor, findChar_charAt i h, charAt_ne_pad i h, Nat.shiftLeft_eq]

theorem decodeFor_phase1 (i : Nat) (h : i < 64) (cs : List Char) (val : Nat)
    (out : List UInt8) :
    decodeFor (charAt i :: cs) val (-2) out =
      decodeFor cs ((val * 64 + i) % 2 ^ 32) (-4)
        (out ++ [UInt8.ofNat ((val * 64 + i) % 2 ^ 32 / 16 % 256)]) := by
  simp [decodeFor, findChar_charAt i h, charAt_ne_pad i h, Nat.shiftLeft_eq,
    Nat.shiftRight_eq_div_pow, and_0xFF]

theorem decodeFor_phase2 (i : Nat) (h : i < 64) (cs : List Char) (val : Nat)
    (out : List UInt8) :
    decodeFor (charAt i :: cs) val (-4) out =
      decodeFor cs ((val * 64 + i) % 2 ^ 32) (-6)
        (out ++ [UInt8.ofNat ((val * 64 + i) % 2 ^ 32 / 4 % 256)]) := by
  simp [decodeFor, findChar_charAt i h, charAt_ne_pad i h, Nat.shiftLeft_eq,
    Nat.shiftRight_eq_div_pow, and_0xFF]

theorem decodeFor_phase3 (i : Nat) (h : i < 64) (cs : List Char) (val : Nat)
    (out : List UInt8) :
    decodeFor (charAt i :: cs) val (-6) out =
      decodeFor cs ((val * 64 + i) % 2 ^ 32) (-8)
        (out ++ [UInt8.ofNat ((val * 64 + i) % 2 ^ 32 % 256)]) := by
  simp [decodeFor, findChar_charAt i h, charAt_ne_pad i h, Nat.shiftLeft_eq,
    Nat.shiftRight_eq_div_pow, and_0xFF]

theorem ofNat_eq_of_toNat (x : Nat) (c : UInt8) (h : x = c.toNat) : UInt8.ofNat x = c := by
  rw [h, ofNat_toNat]

set_option maxRecDepth 8000 in
theorem decodeFor_groupEncode (data : List UInt8) :
    ∀ (val : Nat) (out : List UInt8),
      decodeFor (groupEncode data) val (-8) out = out ++ data := by
  induction data using groupEncode.induct with
  | case1 => intro val out; simp [groupEncode, decodeFor]
  | case2 a =>
    intro val out
    have ha := UInt8.toNat_lt a
    simp only [groupEncode]
    rw [decodeFor_phase0 _ (by omega), decodeFor_phase1 _ (by omega), decodeFor_pad]
    congr 2
    exact ofNat_eq_of_toNat _ _ (by omega)
  | case3 a b =>
    intro val out
    have ha := UInt8.toNat_lt a
    have hb := UInt8.toNat_lt b
    simp only [groupEncode]
    rw [decodeFor_phase0 _ (by omega), decodeFor_phase1 _ (by omega),
      decodeFor_phase2 _ (by omega), decodeFor_pad]
    rw [ofNat_eq_of_toNat _ a (by omega), ofNat_eq_of_toNat _ b (by omega)]
    simp
  | case4 a b c rest ih =>
    intro val out
    have ha := UInt8.toNat_lt a
    have hb := UInt8.toNat_lt b
    have hc := UInt8.toNat_lt c
    simp only [groupEncode]
    rw [decodeFor_phase0 _ (by omega), decodeFor_phase1 _ (by omega),
      decodeFor_phase2 _ (by omega), decodeFor_phase3 _ (by omega), ih]
    rw [ofNat_eq_of_toNat _ a (by omega), ofNat_eq_of_toNat _ b (by omega),
      ofNat_eq_of_toNat _ c (by omega)]
    simp

/-! ## The data-URL prefix -/

theorem findStr_eq_zero (needle s : List Char) :
    findStr needle s = some 0 ↔ needle <+: s := by
  rw [← List.isPrefixOf_iff_prefix]
  cases s with
  | nil => simp [findStr]
  | cons x xs =>
    by_cases h : needle.isPrefixOf (x :: xs) = true
    · simp [findStr, h]
    · simp [findStr, h]

theorem removeDataUrl_id_of_not_data (s : List Char) (h : ¬ "data:".toList <+: s) :
    removeDataUrl s = s := by
  unfold removeDataUrl
  rw [if_neg]
  rwa [findStr_eq_zero]

theorem findChar_eq_none (c : Char) (s : List Char) : findChar c s = none ↔ c ∉ s := by
  induction s with
  | nil => simp [findChar]
  | cons x xs ih =>
    by_cases h : x = c
    · simp [findChar, h]
    · simp [findChar, h, ih, Ne.symm h]

theorem removeDataUrl_of_no_comma (s : List Char) (h : ',' ∉ s) : removeDataUrl s = s := by
  unfold removeDataUrl
  split
  · rw [(findChar_eq_none ',' s).2 h]
  · rfl

theorem findChar_append_cons (c : Char) (l1 l2 : List Char) (h : c ∉ l1) :
    findChar c (l1 ++ c :: l2) = some l1.length := by
  induction l1 with
  | nil => simp [findChar]
  | cons x xs ih =>
    have hx : x ≠ c := fun e => h (by simp [e])
    have hxs : c ∉ xs := fun e => h (by simp [e])
    simp [findChar, hx, ih hxs]

theorem not_data_of_no_colon (s : List Char) (h : ':' ∉ s) : ¬ "data:".toList <+: s := by
  rintro ⟨t, rfl⟩
  exact h (by simp)

theorem groupEncode_no_colon (data : List UInt8) : ':' ∉ groupEncode data := by
  induction data using groupEncode.induct with
  | case1 => simp [groupEncode]
  | case2 a =>
    have ha := UInt8.toNat_lt a
    simp only [groupEncode, List.mem_cons, List.mem_singleton, List.not_mem_nil, or_false,
      not_or]
    exact ⟨(charAt_ne_colon _ (by omega)).symm, (charAt_ne_colon _ (by omega)).symm,
      by decide, by decide⟩
  | case3 a b =>
    simp only [groupEncode, List.mem_cons, List.mem_singleton, List.not_mem_nil, or_false,
      not_or]
    exact ⟨(charAt_ne_colon _ (by omega)).symm, (charAt_ne_colon _ (by omega)).symm,
      (charAt_ne_colon _ (by omega)).symm, by decide⟩
  | case4 a b c rest ih =>
    simp only [groupEncode, List.mem_cons, not_or]
    exact ⟨(charAt_ne_colon _ (by omega)).symm, (charAt_ne_colon _ (by omega)).symm,
      (charAt_ne_colon _ (by omega)).symm, (charAt_ne_colon _ (by omega)).symm, ih⟩

/-! ## The lenient decoder -/

theorem decodeFor_payloadOf (s : List Char) :
    ∀ (val : Nat) (valb : Int) (out : List UInt8),
      decodeFor s val valb out = decodeFor (payloadOf s) val valb out := by
  induction s with
  | nil => intro val valb out; rfl
  | cons c cs ih =>
    intro val valb out
    by_cases hpad : c = '='
    · subst hpad
      simp [payloadOf, decodeFor]
    · cases hf : findChar c base64_chars with
      | none =>
        have hmem : c ∉ base64_chars := (findChar_eq_none c base64_chars).1 hf
        have e : payloadOf (c :: cs) = payloadOf cs := by
          simp [payloadOf, List.takeWhile_cons, hpad, hmem, List.filter_cons]
        rw [e, ← ih]
        simp [decodeFor, hpad, hf]
      | some pos =>
        have hmem : c ∈ base64_chars := by
          by_contra hc
          rw [(findChar_eq_none c base64_chars).2 hc] at hf
          cases hf
        have e : payloadOf (c :: cs) = c :: payloadOf cs := by
          simp [payloadOf, List.takeWhile_cons, hpad, hmem, List.filter_cons]
        rw [e]
        simp only [decodeFor, hpad, hf, if_false]
        split
        · exact ih _ _ _
        · exact ih _ _ _

theorem payloadOf_no_colon (s : List Char) : ':' ∉ payloadOf s := by
  intro h
  have h2 : ':' ∈ base64_chars := by
    have := (List.mem_filter.1 h).2
    simpa using this
  revert h2
  decide


theorem removeDataUrl_groupEncode (data : List UInt8) :
    removeDataUrl (groupEncode data) = groupEncode data :=
  removeDataUrl_id_of_not_data _ (not_data_of_no_colon _ (groupEncode_no_colon data))

theorem base64Decode_eq_decodeFor (s : List Char) (h : removeDataUrl s = s) :
    base64Decode s = decodeFor s 0 (-8) [] := by
  rw [base64Decode, h]

theorem base64Decode_data_url (m p : List Char) (hm : ',' ∉ m) :
    base64Decode ("data:".toList ++ m ++ ";base64,".toList ++ p) = decodeFor p 0 (-8) [] := by
  have hpre : "data:".toList <+: "data:".toList ++ m ++ ";base64,".toList ++ p :=
    ⟨m ++ ";base64,".toList ++ p, by simp⟩
  have hsplit : "data:".toList ++ m ++ ";base64,".toList ++ p
      = ("data:".toList ++ m ++ ";base64".toList) ++ ',' :: p := by simp
  have hno : ',' ∉ "data:".toList ++ m ++ ";base64".toList := by
    simp only [List.mem_append, not_or]
    exact ⟨⟨by decide, hm⟩, by decide⟩
  have hfind := findChar_append_cons ',' _ p hno
  unfold base64Decode removeDataUrl
  rw [if_pos ((findStr_eq_zero _ _).2 hpre)]
  rw [hsplit, hfind]
  simp

/-! ## The loops leave on their own condition -/

theorem encodeWhile_exits (val : Nat) :
    ∀ (fuel : Nat) (valb : Int) (out : List Char), valb < 6 * (fuel : Int) →
      (encodeWhile fuel val valb out).1 < 0 := by
  intro fuel
  induction fuel with
  | zero => intro valb out h; simpa [encodeWhile] using h
  | succ n ih =>
    intro valb out h
    unfold encodeWhile
    split
    · exact ih _ _ (by push_cast at h; omega)
    · rename_i hneg
      simpa using hneg

theorem encodeWhile_fuel_suffices (val : Nat) (valb : Int) (out : List Char) :
    (encodeWhile (valb.toNat + 1) val valb out).1 < 0 :=
  encodeWhile_exits val _ valb out (by push_cast; omega)

theorem padWhile_exits (out : List Char) : (padWhile 4 out).length % 4 = 0 := by
  have h : out.length % 4 = 0 ∨ out.length % 4 = 1 ∨ out.length % 4 = 2 ∨
      out.length % 4 = 3 := by omega
  rcases h with h | h | h | h
  · rw [padWhile_aligned _ _ h]; exact h
  · have h1 : (out.length + 1) % 4 ≠ 0 := by omega
    have h2 : (out.length + 2) % 4 ≠ 0 := by omega
    have h3 : (out.length + 3) % 4 = 0 := by omega
    simp [padWhile, h, h1, h2, h3]
  · rw [padWhile_two _ h]; simp; omega
  · rw [padWhile_one _ h]; simp; omega

theorem encodeWhile_more_fuel (val : Nat) :
    ∀ (n : Nat) (valb : Int) (out : List Char), (encodeWhile n val valb out).1 < 0 →
      ∀ m, n ≤ m → encodeWhile m val valb out = encodeWhile n val valb out := by
  intro n
  induction n with
  | zero =>
    intro valb out h m _
    have hneg : ¬ valb ≥ 0 := by simpa [encodeWhile] using h
    cases m <;> simp [encodeWhile, hneg]
  | succ n ih =>
    intro valb out h m hm
    obtain ⟨m1, rfl⟩ : ∃ m1, m = m1 + 1 := ⟨m - 1, by omega⟩
    by_cases hv : valb ≥ 0
    · simp only [encodeWhile, hv, if_true] at h ⊢
      exact ih _ _ h m1 (by omega)
    · simp [encodeWhile, hv]

theorem padWhile_more_fuel :
    ∀ (n : Nat) (out : List Char), (padWhile n out).length % 4 = 0 →
      ∀ m, n ≤ m → padWhile m out = padWhile n out := by
  intro n
  induction n with
  | zero =>
    intro out h m _
    have h0 : out.length % 4 = 0 := by simpa [padWhile] using h
    rw [padWhile_aligned m out h0, padWhile_aligned 0 out h0]
  | succ n ih =>
    intro out h m hm
    obtain ⟨m1, rfl⟩ : ∃ m1, m = m1 + 1 := ⟨m - 1, by omega⟩
    by_cases hv : out.length % 4 ≠ 0
    · rw [padWhile, if_pos hv] at h
      rw [padWhile, if_pos hv, padWhile, if_pos hv]
      exact ih _ h m1 (by omega)
    · rw [padWhile, if_neg hv, padWhile, if_neg hv]

/-! ## The session -/

theorem liveHandles_append_one (codes : SdkCodes) (trace : List DriverCall) (c : DriverCall) :
    liveHandles codes (trace ++ [c]) = liveAfter codes (liveHandles codes trace) c := by
  simp [liveHandles, List.foldl_append]

theorem split_append_one {α : Type} (trace pre post : List α) (c x : α)
    (h : trace ++ [c] = pre ++ x :: post) :
    (post = [] ∧ pre = trace ∧ x = c) ∨ ∃ post1, trace = pre ++ x :: post1 := by
  rcases List.eq_nil_or_concat post with hp | ⟨L, b, hp⟩
  · subst hp
    have h2 := List.append_inj' h rfl
    exact Or.inl ⟨rfl, h2.1.symm, by simpa using h2.2.symm⟩
  · subst hp
    have h3 : trace ++ [c] = (pre ++ x :: L) ++ [b] := by simpa using h
    have h2 := List.append_inj' h3 rfl
    exact Or.inr ⟨L, h2.1⟩

theorem getLast?_snoc {α : Type} (l : List α) (x : α) : (l ++ [x]).getLast? = some x := by
  simp

theorem invariant_fresh (codes : SdkCodes) (garbage : Handle) (initResult : Int) :
    SessionInvariant codes ((FingerprintBridge codes garbage initResult).1, []) := by
  have e : (FingerprintBridge codes garbage initResult).1
      = { device_handle_ := garbage, device_open_ := false } := by
    unfold FingerprintBridge
    split <;> rfl
  rw [e]
  refine ⟨by simp, ?_, by simp [liveHandles]⟩
  intro pre id r h post hsplit
  simp at hsplit

theorem invariant_close (codes : SdkCodes) (s : Session) (trace : List DriverCall) (r : Int)
    (hinv : SessionInvariant codes (s, trace)) (hopen : s.device_open_ = true) :
    SessionInvariant codes
      ({ s with device_open_ := false }, trace ++ [DriverCall.dpfpdd_close s.device_handle_ r]) := by
  obtain ⟨_, h2, h3⟩ := hinv
  refine ⟨by simp, ?_, ?_⟩
  · intro pre id r1 h post hsplit
    rcases split_append_one _ _ _ _ _ hsplit with ⟨_, _, hx⟩ | ⟨post1, hp⟩
    · cases hx
    · exact h2 pre id r1 h post1 hp
  · simp only [hopen, if_true] at h3
    simp [liveHandles_append_one, h3, liveAfter]

theorem invariant_open (codes : SdkCodes) (s : Session) (trace : List DriverCall)
    (id : String) (reply : OpenReply)
    (hinv : SessionInvariant codes (s, trace)) (hclosed : s.device_open_ = false) :
    SessionInvariant codes
      ({ device_handle_ := reply.handle,
         device_open_ := decide (reply.result = codes.DPFPDD_SUCCESS) },
        trace ++ [DriverCall.dpfpdd_open id reply.result reply.handle]) := by
  obtain ⟨_, h2, h3⟩ := hinv
  simp only [hclosed] at h3
  refine ⟨?_, ?_, ?_⟩
  · rw [getLast?_snoc]
    simp only [decide_eq_true_eq]
    constructor
    · intro h; exact ⟨id, reply.handle, by rw [h]⟩
    · rintro ⟨id1, h1, he⟩
      injection he with he
      injection he with _ hr _
  · intro pre id1 r1 h post hsplit
    rcases split_append_one _ _ _ _ _ hsplit with ⟨_, hpre, _⟩ | ⟨post1, hp⟩
    · rw [hpre]; simpa using h3
    · exact h2 pre id1 r1 h post1 hp
  · rw [liveHandles_append_one, h3]
    by_cases hr : reply.result = codes.DPFPDD_SUCCESS <;> simp [liveAfter, hr]

/-- The driver reads a device id up to its first NUL character. -/
theorem c_str_examples :
    c_str "dev" = "dev" ∧ c_str (String.mk ['a', Char.ofNat 0, 'b']) = "a" := by
  decide

theorem OpenDevice_session (codes : SdkCodes) (s : Session) (id : String)
    (rest : List JsValue) (c : Int) (reply : OpenReply) :
    (OpenDevice codes s (JsValue.string id :: rest) c reply).1 =
      { device_handle_ := reply.handle,
        device_open_ := decide (reply.result = codes.DPFPDD_SUCCESS) } := by
  cases s with
  | mk handle isOpen =>
    by_cases hr : reply.result = codes.DPFPDD_SUCCESS <;> cases isOpen <;>
      simp [OpenDevice, hr]

theorem OpenDevice_calls (codes : SdkCodes) (s : Session) (id : String)
    (rest : List JsValue) (c : Int) (reply : OpenReply) :
    (OpenDevice codes s (JsValue.string id :: rest) c reply).2.2 =
      (if s.device_open_ then [DriverCall.dpfpdd_close s.device_handle_ c] else []) ++
        [DriverCall.dpfpdd_open (c_str id) reply.result reply.handle] := by
  by_cases hr : reply.result = codes.DPFPDD_SUCCESS <;>
    by_cases ho : s.device_open_ = true <;> simp [OpenDevice, hr, ho]

theorem OpenDevice_bad_argument (codes : SdkCodes) (s : Session) (info : List JsValue)
    (c : Int) (reply : OpenReply) (h : ∀ id rest, info ≠ JsValue.string id :: rest) :
    OpenDevice codes s info c reply =
      (s, ⟨some (JsError.typeError "Device ID expected"), JsValue.null⟩, []) := by
  unfold OpenDevice
  split
  · rename_i id rest
    exact absurd rfl (h id rest)
  · rfl

theorem invariant_step (codes : SdkCodes) (st : Session × List DriverCall) (call : ApiCall)
    (hinv : SessionInvariant codes st) : SessionInvariant codes (step codes st call) := by
  obtain ⟨s, trace⟩ := st
  cases call with
  | closeDevice r =>
    by_cases ho : s.device_open_ = true
    · have e : step codes (s, trace) (ApiCall.closeDevice r) =
          ({ s with device_open_ := false }, trace ++ [DriverCall.dpfpdd_close s.device_handle_ r]) := by
        by_cases hr : r = codes.DPFPDD_SUCCESS <;> simp [step, CloseDevice, ho, hr]
      rw [e]
      exact invariant_close codes s trace r hinv ho
    · have e : step codes (s, trace) (ApiCall.closeDevice r) = (s, trace) := by
        simp [step, CloseDevice, ho]
      rw [e]
      exact hinv
  | openDevice info c reply =>
    by_cases hinfo : ∃ id rest, info = JsValue.string id :: rest
    · obtain ⟨id, rest, rfl⟩ := hinfo
      have e : step codes (s, trace) (ApiCall.openDevice (JsValue.string id :: rest) c reply) =
          ({ device_handle_ := reply.handle,
             device_open_ := decide (reply.result = codes.DPFPDD_SUCCESS) },
            (trace ++ (if s.device_open_ then [DriverCall.dpfpdd_close s.device_handle_ c] else []))
              ++ [DriverCall.dpfpdd_open (c_str id) reply.result reply.handle]) := by
        simp only [step, OpenDevice_session, OpenDevice_calls, List.append_assoc]
      rw [e]
      by_cases ho : s.device_open_ = true
      · have hc := invariant_close codes s trace c hinv ho
        have h := invariant_open codes _ _ (c_str id) reply hc rfl
        simpa [ho] using h
      · have ho2 : s.device_open_ = false := by simpa using ho
        have h := invariant_open codes s trace (c_str id) reply hinv ho2
        simpa [ho2] using h
    · have hne : ∀ id rest, info ≠ JsValue.string id :: rest :=
        fun id rest e => hinfo ⟨id, rest, e⟩
      have e : step codes (s, trace) (ApiCall.openDevice info c reply) = (s, trace) := by
        simp [step, OpenDevice_bad_argument codes s info c reply hne]
      rw [e]
      exact hinv

theorem invariant_foldl (codes : SdkCodes) (calls : List ApiCall) :
    ∀ st, SessionInvariant codes st → SessionInvariant codes (calls.foldl (step codes) st) := by
  induction calls with
  | nil => intro st h; exact h
  | cons c cs ih => intro st h; exact ih _ (invariant_step codes st c h)

theorem invariant_run (codes : SdkCodes) (garbage : Handle) (initResult : Int)
    (calls : List ApiCall) : SessionInvariant codes (run codes garbage initResult calls) :=
  invariant_foldl codes calls _ (invariant_fresh codes garbage initResult)

theorem run_append_one (codes : SdkCodes) (garbage : Handle) (initResult : Int)
    (calls : List ApiCall) (c : ApiCall) :
    run codes garbage initResult (calls ++ [c]) =
      step codes (run codes garbage initResult calls) c := by
  simp [run, List.foldl_append]

/-! ## Claims on the codec -/

/-- C1: for every byte sequence `b`, decoding the encoding of `b` gives `b` back; the
empty sequence and lengths not divisible by 3 are included. -/
theorem base64_round_trip (b : List UInt8) : base64Decode (base64Encode b) = b := by
  rw [base64Encode_eq_groupEncode,
    base64Decode_eq_decodeFor _ (removeDataUrl_groupEncode b), decodeFor_groupEncode]
  simp

/-- C2: for every byte sequence `b`, `base64Encode b` is the padded RFC 4648 encoding of
`b`, with the accumulator `val` wrapping modulo `2 ^ 32`. -/
theorem base64Encode_is_rfc4648 (b : List UInt8) : base64Encode b = rfc4648Encode b :=
  (base64Encode_eq_groupEncode b).trans (rfc4648Encode_eq_groupEncode b).symm

/-- C3: for every text `s` that does not begin with `data:`, `base64Decode s` is the
decoding of `payloadOf s`, the part of `s` before its first `=` with every character
outside the alphabet removed. The decoder is a total function: it has no failing path. -/
theorem base64Decode_lenient (s : List Char) (h : ¬ "data:".toList <+: s) :
    base64Decode s = base64Decode (payloadOf s) := by
  rw [base64Decode_eq_decodeFor s (removeDataUrl_id_of_not_data s h),
    base64Decode_eq_decodeFor (payloadOf s)
      (removeDataUrl_id_of_not_data _ (not_data_of_no_colon _ (payloadOf_no_colon s)))]
  exact decodeFor_payloadOf s 0 (-8) []

/-- C3, at `"QQ =="`: it does not begin with `data:`, its payload is `"QQ"`, which is also
the payload of `"QQ=="`, and the two texts decode alike. -/
theorem base64Decode_lenient_witness :
    (¬ "data:".toList <+: "QQ ==".toList) ∧
      payloadOf "QQ ==".toList = "QQ".toList ∧
      base64Decode "QQ ==".toList = base64Decode (payloadOf "QQ ==".toList) ∧
      base64Decode "QQ ==".toList = base64Decode "QQ==".toList :=
  ⟨by decide, by decide, base64Decode_lenient "QQ ==".toList (by decide), by decide⟩

/-- C4, as stated, fails: with `m = "image/png"` and `p = "data:,QQ=="` the text
`data:image/png;base64,data:,QQ==` decodes to the four bytes of `dataQQ`, while `p` alone
loses its own `data:,` prefix and decodes to the single byte `0x41`. -/
theorem base64Decode_data_url_counterexample :
    ',' ∉ "image/png".toList ∧
      base64Decode ("data:".toList ++ "image/png".toList ++ ";base64,".toList
        ++ "data:,QQ==".toList) = [0x75, 0xAB, 0x5A, 0x41] ∧
      base64Decode "data:,QQ==".toList = [0x41] ∧
      base64Decode ("data:".toList ++ "image/png".toList ++ ";base64,".toList
        ++ "data:,QQ==".toList) ≠ base64Decode "data:,QQ==".toList := by
  decide

/-- C4, amended: for every mime text `m` without a comma and every payload `p`, the data
URL decodes to what the decoding loop gives on `p` as it stands, with no second prefix
removal; so it decodes as `p` does whenever `p` does not itself begin with `data:` or
contains no comma. -/
theorem base64Decode_data_url_once (m p : List Char) (hm : ',' ∉ m) :
    base64Decode ("data:".toList ++ m ++ ";base64,".toList ++ p) = decodeFor p 0 (-8) [] ∧
      ((¬ "data:".toList <+: p) ∨ ',' ∉ p →
        base64Decode ("data:".toList ++ m ++ ";base64,".toList ++ p) = base64Decode p) := by
  refine ⟨base64Decode_data_url m p hm, fun hp => ?_⟩
  rw [base64Decode_data_url m p hm]
  rcases hp with hp | hp
  · rw [base64Decode_eq_decodeFor p (removeDataUrl_id_of_not_data p hp)]
  · rw [base64Decode_eq_decodeFor p (removeDataUrl_of_no_comma p hp)]

/-- C4 amended, at `m = "image/png"`, `p = "QQ=="`. -/
theorem base64Decode_data_url_once_witness :
    ',' ∉ "image/png".toList ∧
      base64Decode ("data:".toList ++ "image/png".toList ++ ";base64,".toList
        ++ "QQ==".toList) = base64Decode "QQ==".toList :=
  ⟨by decide,
    (base64Decode_data_url_once "image/png".toList "QQ==".toList (by decide)).2
      (Or.inl (by decide))⟩

/-- C10: for every byte sequence `b`, `base64Encode b` is a text whose length is a multiple
of 4, and the empty sequence gives the empty text. The encoder is a total function. -/
theorem base64Encode_length (b : List UInt8) :
    (base64Encode b).length % 4 = 0 ∧ base64Encode [] = [] := by
  refine ⟨?_, by decide⟩
  rw [base64Encode_eq_groupEncode]
  exact groupEncode_length b

/-! ## Claims on the session -/

/-- C5: after every finite sequence of open/close calls on a freshly constructed session
(hence after each call of any sequence), whatever the driver answers: the session is open exactly when the most recent driver call
it issued is a successful driver open; every driver open was issued while no acquired
handle was still unreleased; the live handles are the one the open session holds, none
when it is closed. Two successive successful opens leave the second handle as the only
live one, and an open the driver refuses leaves the session closed with no live handle. -/
theorem session_invariant (codes : SdkCodes) (garbage : Handle) (initResult : Int)
    (calls : List ApiCall) :
    ((run codes garbage initResult calls).1.device_open_ = true ↔
        ∃ id h, (run codes garbage initResult calls).2.getLast? =
          some (DriverCall.dpfpdd_open id codes.DPFPDD_SUCCESS h)) ∧
      (∀ pre id r h post,
        (run codes garbage initResult calls).2 = pre ++ DriverCall.dpfpdd_open id r h :: post →
          liveHandles codes pre = []) ∧
      (liveHandles codes (run codes garbage initResult calls).2 =
        if (run codes garbage initResult calls).1.device_open_ then
          [(run codes garbage initResult calls).1.device_handle_]
        else []) ∧
      (∀ id1 id2 rest1 rest2 c1 c2 h1 h2,
        (run codes garbage initResult (calls ++
            [ApiCall.openDevice (JsValue.string id1 :: rest1) c1 ⟨codes.DPFPDD_SUCCESS, h1⟩,
             ApiCall.openDevice (JsValue.string id2 :: rest2) c2
               ⟨codes.DPFPDD_SUCCESS, h2⟩])).1 =
            { device_handle_ := h2, device_open_ := true } ∧
          liveHandles codes (run codes garbage initResult (calls ++
            [ApiCall.openDevice (JsValue.string id1 :: rest1) c1 ⟨codes.DPFPDD_SUCCESS, h1⟩,
             ApiCall.openDevice (JsValue.string id2 :: rest2) c2
               ⟨codes.DPFPDD_SUCCESS, h2⟩])).2 = [h2]) ∧
      (∀ id rest c reply, reply.result ≠ codes.DPFPDD_SUCCESS →
        (run codes garbage initResult (calls ++
            [ApiCall.openDevice (JsValue.string id :: rest) c reply])).1.device_open_
            = false ∧
          liveHandles codes (run codes garbage initResult (calls ++
            [ApiCall.openDevice (JsValue.string id :: rest) c reply])).2 = []) := by
  refine ⟨(invariant_run codes garbage initResult calls).1,
    (invariant_run codes garbage initResult calls).2.1,
    (invariant_run codes garbage initResult calls).2.2, ?_, ?_⟩
  · intro id1 id2 rest1 rest2 c1 c2 h1 h2
    have hinv := (invariant_run codes garbage initResult (calls ++
      [ApiCall.openDevice (JsValue.string id1 :: rest1) c1 ⟨codes.DPFPDD_SUCCESS, h1⟩,
       ApiCall.openDevice (JsValue.string id2 :: rest2) c2
         ⟨codes.DPFPDD_SUCCESS, h2⟩])).2.2
    have hst : (run codes garbage initResult (calls ++
        [ApiCall.openDevice (JsValue.string id1 :: rest1) c1 ⟨codes.DPFPDD_SUCCESS, h1⟩,
         ApiCall.openDevice (JsValue.string id2 :: rest2) c2
           ⟨codes.DPFPDD_SUCCESS, h2⟩])).1 =
        { device_handle_ := h2, device_open_ := true } := by
      simp [run, List.foldl_append, step, OpenDevice_session]
    rw [hst] at hinv
    exact ⟨hst, by simpa using hinv⟩
  · intro id rest c reply hr
    have hinv := (invariant_run codes garbage initResult (calls ++
      [ApiCall.openDevice (JsValue.string id :: rest) c reply])).2.2
    have hst : (run codes garbage initResult (calls ++
        [ApiCall.openDevice (JsValue.string id :: rest) c reply])).1.device_open_ = false := by
      simp [run, List.foldl_append, step, OpenDevice_session, hr]
    rw [hst] at hinv
    exact ⟨hst, by simpa using hinv⟩

/-- C6: whatever the session state and the driver's answer, the session is closed after
`CloseDevice`; on a closed session it returns `true` with no exception, issues no driver
call and leaves the members as they are, so a second `CloseDevice` in a row never errors;
on an open session it passes the held handle to the driver once and throws exactly when
the driver's answer is not the success code. -/
theorem CloseDevice_idempotent (codes : SdkCodes) (s : Session) (r r2 : Int) :
    (CloseDevice codes s r).1.device_open_ = false ∧
      (s.device_open_ = false →
        CloseDevice codes s r = (s, ⟨none, JsValue.boolean true⟩, [])) ∧
      CloseDevice codes (CloseDevice codes s r).1 r2 =
        ((CloseDevice codes s r).1, ⟨none, JsValue.boolean true⟩, []) ∧
      (s.device_open_ = true →
        (CloseDevice codes s r).2.2 = [DriverCall.dpfpdd_close s.device_handle_ r] ∧
        ((CloseDevice codes s r).2.1.exception ≠ none ↔ r ≠ codes.DPFPDD_SUCCESS) ∧
        (r ≠ codes.DPFPDD_SUCCESS →
          (CloseDevice codes s r).2.1 =
            ⟨some (JsError.error ("Failed to close device: " ++ toString r)),
              JsValue.boolean false⟩) ∧
        (r = codes.DPFPDD_SUCCESS →
          (CloseDevice codes s r).2.1 = ⟨none, JsValue.boolean true⟩)) := by
  have hclosed : (CloseDevice codes s r).1.device_open_ = false := by
    by_cases ho : s.device_open_ = true <;> by_cases hr : r = codes.DPFPDD_SUCCESS <;>
      simp [CloseDevice, ho, hr]
  have hnoop : ∀ (s1 : Session) (r1 : Int), s1.device_open_ = false →
      CloseDevice codes s1 r1 = (s1, ⟨none, JsValue.boolean true⟩, []) := by
    intro s1 r1 ho
    simp [CloseDevice, ho]
  refine ⟨hclosed, hnoop s r, hnoop _ r2 hclosed, ?_⟩
  · intro ho
    by_cases hr : r = codes.DPFPDD_SUCCESS <;> simp [CloseDevice, ho, hr]

/-- C9, as stated, fails: open device `"dev"` on a fresh session, the driver answering
success with handle `7`, then destroy the object. The destructor issues no driver call,
no close of handle `7` among them, and handle `7` is still live afterwards. -/
theorem destructor_counterexample :
    (run ⟨0, 0, 1⟩ 0 0 [ApiCall.openDevice [JsValue.string "dev"] 0 ⟨0, 7⟩]).1 =
        { device_handle_ := 7, device_open_ := true } ∧
      (∀ r, DriverCall.dpfpdd_close 7 r ∉
        destructor (run ⟨0, 0, 1⟩ 0 0 [ApiCall.openDevice [JsValue.string "dev"] 0 ⟨0, 7⟩]).1) ∧
      liveHandles ⟨0, 0, 1⟩
        ((run ⟨0, 0, 1⟩ 0 0 [ApiCall.openDevice [JsValue.string "dev"] 0 ⟨0, 7⟩]).2 ++
          destructor (run ⟨0, 0, 1⟩ 0 0
            [ApiCall.openDevice [JsValue.string "dev"] 0 ⟨0, 7⟩]).1) = [7] := by
  refine ⟨by decide, ?_, by decide⟩
  intro r
  simp [destructor]

/-- C9, amended: after every sequence of open/close calls on a fresh session, whatever the
driver answers, destroying the object issues no driver call, so the live handles after
destruction are those before it: the handle of a session that is still open is not passed
to the driver's close and stays live once the object is gone, and a session that is closed
leaves none. On an open session the same handle is released by `CloseDevice`, which
passes it to the driver's close and leaves no live handle, and by `OpenDevice`, which
passes it to the driver's close before it opens again. -/
theorem destructor_leaves_handle_live (codes : SdkCodes) (garbage : Handle)
    (initResult : Int) (calls : List ApiCall) :
    (∀ c, c ∉ destructor (run codes garbage initResult calls).1) ∧
      liveHandles codes ((run codes garbage initResult calls).2 ++
          destructor (run codes garbage initResult calls).1) =
        (if (run codes garbage initResult calls).1.device_open_ then
          [(run codes garbage initResult calls).1.device_handle_]
        else []) ∧
      ((run codes garbage initResult calls).1.device_open_ = true →
        (run codes garbage initResult calls).1.device_handle_ ∈
            liveHandles codes ((run codes garbage initResult calls).2 ++
              destructor (run codes garbage initResult calls).1) ∧
          (∀ r, (CloseDevice codes (run codes garbage initResult calls).1 r).2.2 =
              [DriverCall.dpfpdd_close
                (run codes garbage initResult calls).1.device_handle_ r] ∧
            liveHandles codes ((run codes garbage initResult calls).2 ++
              (CloseDevice codes (run codes garbage initResult calls).1 r).2.2) = []) ∧
          (∀ id rest c reply,
            (OpenDevice codes (run codes garbage initResult calls).1
                (JsValue.string id :: rest) c reply).2.2 =
              [DriverCall.dpfpdd_close
                  (run codes garbage initResult calls).1.device_handle_ c,
                DriverCall.dpfpdd_open (c_str id) reply.result reply.handle])) := by
  have hinv := (invariant_run codes garbage initResult calls).2.2
  generalize run codes garbage initResult calls = st at hinv
  obtain ⟨s, trace⟩ := st
  have hlive : liveHandles codes (trace ++ destructor s) =
      (if s.device_open_ then [s.device_handle_] else []) := by
    simpa [destructor] using hinv
  refine ⟨fun c hc => by simp [destructor] at hc, hlive, fun ho1 => ?_⟩
  have ho : s.device_open_ = true := ho1
  have hinv1 : liveHandles codes trace =
      (if s.device_open_ then [s.device_handle_] else []) := hinv
  clear hinv ho1
  refine ⟨?_, fun r => ?_, fun id rest c reply => ?_⟩
  · show s.device_handle_ ∈ liveHandles codes (trace ++ destructor s)
    rw [hlive]
    simp [ho]
  · have hcalls :
        (CloseDevice codes s r).2.2 = [DriverCall.dpfpdd_close s.device_handle_ r] := by
      by_cases hr : r = codes.DPFPDD_SUCCESS <;> simp [CloseDevice, ho, hr]
    refine ⟨hcalls, ?_⟩
    show liveHandles codes (trace ++ (CloseDevice codes s r).2.2) = []
    have h3 : liveHandles codes trace = [s.device_handle_] := by simpa [ho] using hinv1
    rw [hcalls, liveHandles_append_one, h3]
    simp [liveAfter]
  · show (OpenDevice codes s (JsValue.string id :: rest) c reply).2.2 = _
    simp [OpenDevice_calls, ho]

/-! ## Claims on comparison and enumeration -/

/-- C7: for every pair of template texts and every matcher, the success code and the
non-match code being distinct: when either decoded template is empty, `CompareFeatures`
throws the decode error and does not call the matcher; otherwise it calls the matcher once,
on the two decoded byte sequences, and returns `matched = true` with the matcher's score for
the success code, `matched = false` with the matcher's score for the non-match code, and
throws an error carrying the code for every other code. -/
theorem CompareFeatures_determined (codes : SdkCodes) (a b : String) (rest : List JsValue)
    (dpfj_compare : List UInt8 → List UInt8 → CompareReply)
    (hcodes : codes.DPFJ_SUCCESS ≠ codes.DPFJ_E_NOT_MATCH) :
    (base64Decode a.toList = [] ∨ base64Decode b.toList = [] →
      CompareFeatures codes (JsValue.string a :: JsValue.string b :: rest) dpfj_compare =
        (⟨some (JsError.error "Failed to decode base64 feature data"), JsValue.null⟩, [])) ∧
    (base64Decode a.toList ≠ [] → base64Decode b.toList ≠ [] →
      (CompareFeatures codes (JsValue.string a :: JsValue.string b :: rest) dpfj_compare).2 =
          [(base64Decode a.toList, base64Decode b.toList)] ∧
        ((dpfj_compare (base64Decode a.toList) (base64Decode b.toList)).result
            = codes.DPFJ_SUCCESS →
          (CompareFeatures codes (JsValue.string a :: JsValue.string b :: rest)
              dpfj_compare).1 =
            ⟨none, JsValue.object [("success", JsValue.boolean true),
              ("matched", JsValue.boolean true),
              ("score", JsValue.number (Int.ofNat
                (dpfj_compare (base64Decode a.toList) (base64Decode b.toList)).score))]⟩) ∧
        ((dpfj_compare (base64Decode a.toList) (base64Decode b.toList)).result
            = codes.DPFJ_E_NOT_MATCH →
          (CompareFeatures codes (JsValue.string a :: JsValue.string b :: rest)
              dpfj_compare).1 =
            ⟨none, JsValue.object [("success", JsValue.boolean true),
              ("matched", JsValue.boolean false),
              ("score", JsValue.number (Int.ofNat
                (dpfj_compare (base64Decode a.toList) (base64Decode b.toList)).score))]⟩) ∧
        ((dpfj_compare (base64Decode a.toList) (base64Decode b.toList)).result
            ≠ codes.DPFJ_SUCCESS →
          (dpfj_compare (base64Decode a.toList) (base64Decode b.toList)).result
            ≠ codes.DPFJ_E_NOT_MATCH →
          (CompareFeatures codes (JsValue.string a :: JsValue.string b :: rest)
              dpfj_compare).1 =
            ⟨some (JsError.error ("Failed to compare features: " ++ toString
              (dpfj_compare (base64Decode a.toList) (base64Decode b.toList)).result)),
              JsValue.null⟩)) := by
  have hne : codes.DPFJ_E_NOT_MATCH ≠ codes.DPFJ_SUCCESS := fun e => hcodes e.symm
  simp only [CompareFeatures]
  generalize base64Decode a.toList = fa
  generalize base64Decode b.toList = fb
  generalize dpfj_compare fa fb = reply
  rcases fa with _ | ⟨x, xs⟩ <;> rcases fb with _ | ⟨y, ys⟩
  · simp
  · simp
  · simp
  · by_cases h1 : reply.result = codes.DPFJ_SUCCESS
    · simp [h1, hcodes]
    · by_cases h2 : reply.result = codes.DPFJ_E_NOT_MATCH
      · simp [h2, hne]
      · simp [h1, h2]

/-- C7, at the template texts `"QQ=="` and `"QUI="`, success code `0`, non-match code `1`
and a matcher answering success with score `12`. -/
theorem CompareFeatures_determined_witness :
    (0 : Int) ≠ 1 ∧
      base64Decode "QQ==".toList = [0x41] ∧ base64Decode "QUI=".toList = [0x41, 0x42] ∧
      (CompareFeatures ⟨0, 0, 1⟩ [JsValue.string "QQ==", JsValue.string "QUI="]
          (fun _ _ => ⟨0, 12⟩)).2 = [([0x41], [0x41, 0x42])] ∧
      (CompareFeatures ⟨0, 0, 1⟩ [JsValue.string "QQ==", JsValue.string "QUI="]
          (fun _ _ => ⟨0, 12⟩)).1 =
        ⟨none, JsValue.object [("success", JsValue.boolean true),
          ("matched", JsValue.boolean true), ("score", JsValue.number 12)]⟩ :=
  ⟨by decide, by decide, by decide,
    ((CompareFeatures_determined ⟨0, 0, 1⟩ "QQ==" "QUI=" [] (fun _ _ => ⟨0, 12⟩)
      (by decide)).2 (by decide) (by decide)).1,
    ((CompareFeatures_determined ⟨0, 0, 1⟩ "QQ==" "QUI=" [] (fun _ _ => ⟨0, 12⟩)
      (by decide)).2 (by decide) (by decide)).2.1 rfl⟩

theorem GetDeviceList_zero_devices (codes : SdkCodes) (count : CountReply)
    (query : QueryReply) (hr : count.result = codes.DPFPDD_SUCCESS)
    (hz : count.device_count = 0) :
    GetDeviceList codes count query = some (JsValue.array []) := by
  simp [GetDeviceList, hr, hz]

theorem GetDeviceList_query_failure (codes : SdkCodes) (count : CountReply)
    (query : QueryReply) (hr : count.result = codes.DPFPDD_SUCCESS)
    (hpos : 0 < count.device_count) (hq : query.result ≠ codes.DPFPDD_SUCCESS) :
    GetDeviceList codes count query = some (JsValue.array []) := by
  have h1 : count.device_count ≠ 0 := by omega
  have h2 : ¬ count.device_count < 0 := by omega
  simp [GetDeviceList, hr, h1, h2, hq]

/-- A successful descriptor query that leaves a negative count gives the empty array. -/
theorem GetDeviceList_negative_query_count :
    GetDeviceList ⟨0, 0, 1⟩ ⟨0, 2⟩ ⟨0, -1, fun _ => ⟨"", ""⟩⟩ = some (JsValue.array []) := by
  rfl

/-- C8, the failing path: when the driver's device-count query does not report the success
code, `GetDeviceList` returns the number `0`, not the empty array that the zero-device path
and the failed descriptor-query path return. -/
theorem GetDeviceList_count_failure (codes : SdkCodes) (count : CountReply)
    (query : QueryReply) (h : count.result ≠ codes.DPFPDD_SUCCESS) :
    GetDeviceList codes count query = some (JsValue.number 0) ∧
      GetDeviceList codes count query ≠ some (JsValue.array []) := by
  have e : GetDeviceList codes count query = some (JsValue.number 0) := by
    simp [GetDeviceList, h]
  refine ⟨e, ?_⟩
  rw [e]
  intro hcontra
  injection hcontra with hcontra
  cases hcontra

/-- C8, at success code `0` and a count query answering `1`. -/
theorem GetDeviceList_count_failure_witness :
    (1 : Int) ≠ 0 ∧
      GetDeviceList ⟨0, 0, 1⟩ ⟨1, 0⟩ ⟨0, 0, fun _ => ⟨"", ""⟩⟩ = some (JsValue.number 0) ∧
      GetDeviceList ⟨0, 0, 1⟩ ⟨1, 0⟩ ⟨0, 0, fun _ => ⟨"", ""⟩⟩ ≠ some (JsValue.array []) :=
  ⟨by decide,
    GetDeviceList_count_failure ⟨0, 0, 1⟩ ⟨1, 0⟩ ⟨0, 0, fun _ => ⟨"", ""⟩⟩ (by decide)⟩

end FingerprintBridge
